import Mathlib

/-!
Shallow embedding of `src/src/utils/AutoDeleteManager.js` (x-Ghost).

JS strings are modelled as `List Char` (`JStr`); `String.prototype.toLowerCase`
as `List.map Char.toLower`; `startsWith`/`endsWith`/`includes` as
prefix/suffix/infix tests on character lists.  The DOM is modelled by the
data the manager actually reads from it: anchor `href` attributes, the
`data-ghosted` attribute of flagged cells, presence of the un-retweet button,
and per-poll query results for the caret / menu / confirm elements.
-/

namespace XGhost

/-- JS strings, modelled as lists of characters. -/
abbrev JStr := List Char

/-- Turn a Lean string literal into the character-list model. -/
def strL (s : String) : JStr := s.data

/-- Model of `String.prototype.toLowerCase` (ASCII letters, as `Char.toLower`). -/
def lowerStr (s : JStr) : JStr := s.map Char.toLower

/-- Model of `String.prototype.includes pat` on a JS string `s`. -/
def strIncludes (pat : JStr) : JStr → Bool
  | [] => pat.isEmpty
  | c :: t => pat.isPrefixOf (c :: t) || strIncludes pat t

/-- Whitespace stripped by `String.prototype.trim` (common ASCII subset). -/
def jsWhitespaceChar (c : Char) : Bool :=
  c = ' ' || c = '\t' || c = '\n' || c = '\r'

/-- Model of `String.prototype.trim`. -/
def jsTrim (s : JStr) : JStr :=
  ((s.dropWhile jsWhitespaceChar).reverse.dropWhile jsWhitespaceChar).reverse

/-- A rendered DOM element, reduced to the data `isVisible` inspects:
`offsetWidth`, `offsetHeight` and `getClientRects().length`. -/
structure Elem where
  offsetWidth : Nat
  offsetHeight : Nat
  clientRectsLen : Nat
deriving DecidableEq, Repr

/-- Model of `isVisible(el)` over a possibly-null element:
`Boolean(el && (el.offsetWidth || el.offsetHeight || el.getClientRects().length))`. -/
def isVisible : Option Elem → Bool
  | none => false
  | some el => el.offsetWidth != 0 || el.offsetHeight != 0 || el.clientRectsLen != 0

/-- A content unit (`article[data-testid='tweet']`), reduced to what
`isTweetByUser` reads: the `href` attributes of its anchors (the CSS
selector `a[href^='/']` keeps those starting with `/`) and whether a
`button[data-testid='unretweet']` descendant exists. -/
structure Article where
  anchorHrefs : List JStr
  hasUnretweetButton : Bool
deriving DecidableEq, Repr

/-- A flagged cell (`div[data-testid='cellInnerDiv'][data-ghosted]`): its
`data-ghosted` attribute value and its tweet articles in document order. -/
structure Cell where
  ghosted : JStr
  articles : List Article
deriving DecidableEq, Repr

/-- The document, reduced to the cells matched by `FLAGGED_SELECTOR`
(i.e. `cellInnerDiv`s carrying a `data-ghosted` attribute), in document order. -/
structure DocModel where
  flaggedCells : List Cell
deriving DecidableEq, Repr

/-- Model of the `PROBLEM_MARKERS` constant. -/
def PROBLEM_MARKERS : List JStr :=
  [strL "postquality.problem",
   strL "postquality.problem-adjacent",
   strL "postquality.potential-problem"]

/-- Model of `getNormalizedUsername()`:
`(this.getUsername?.() || "").trim().replace(/^@/, "")` then `.toLowerCase()`.
The raw handle is the argument (`[]` models an unresolved username). -/
def getNormalizedUsername (raw : JStr) : JStr :=
  lowerStr (match jsTrim raw with
    | '@' :: rest => rest
    | s => s)

/-- The link loop inside `isTweetByUser`: iterate the (selector-filtered)
anchors; lowercase each `href`; skip ones not starting with `/`; on the
first `href` equal to `/<username>` or starting with `/<username>/`,
return `false` if the article has a repost (un-retweet) marker, else `true`. -/
def tweetLinkLoop (username : JStr) (a : Article) : List JStr → Bool
  | [] => false
  | href :: rest =>
    let h := lowerStr href
    if !(['/'].isPrefixOf h) then tweetLinkLoop username a rest
    else if h = '/' :: username || ('/' :: (username ++ ['/'])).isPrefixOf h then
      if a.hasUnretweetButton then false else true
    else tweetLinkLoop username a rest

/-- Model of `isTweetByUser(article)` with the normalized username passed explicitly.
The `querySelectorAll("a[href^='/']")` call is the `filter`; the JS
null-article guard cannot arise in the model (articles are total values). -/
def isTweetByUser (username : JStr) (a : Article) : Bool :=
  if username.isEmpty then false
  else tweetLinkLoop username a (a.anchorHrefs.filter (fun h => ['/'].isPrefixOf h))

/-- The filter body of `getAllFlaggedCells`: some `PROBLEM_MARKERS` entry is a
substring of the lowercased `data-ghosted` value. -/
def cellIsFlagged (c : Cell) : Bool :=
  PROBLEM_MARKERS.any (fun m => strIncludes m (lowerStr c.ghosted))

/-- Model of `getAllFlaggedCells()`. -/
def getAllFlaggedCells (d : DocModel) : List Cell :=
  d.flaggedCells.filter cellIsFlagged

/-- Model of `getTargetArticleFromCell(cell)`: first article of the cell attributable
to the user (`Array.find` over the articles), or `none`. -/
def getTargetArticleFromCell (username : JStr) (c : Cell) : Option Article :=
  c.articles.find? (isTweetByUser username)

/-- The `for`-loop of `findFirstFlaggedArticle` over the flagged cells. -/
def firstArticleLoop (username : JStr) : List Cell → Option Article
  | [] => none
  | c :: rest =>
    match getTargetArticleFromCell username c with
    | some a => some a
    | none => firstArticleLoop username rest

/-- Model of `findFirstFlaggedArticle()`. -/
def findFirstFlaggedArticle (username : JStr) (d : DocModel) : Option Article :=
  firstArticleLoop username (getAllFlaggedCells d)

/-- Model of `this.state` of the manager. -/
structure AgentState where
  running : Bool
  deleting : Bool
  deletedCount : Nat
  lastError : Option String
deriving DecidableEq, Repr

/-- Model of `DEFAULT_CONFIG` (with `config` overrides already merged in). -/
structure Config where
  WAIT_BETWEEN_STEPS : Nat
  WAIT_AFTER_DELETE : Nat
  SCAN_INTERVAL : Nat
  MENU_ATTEMPTS : Nat
  CONFIRM_ATTEMPTS : Nat
deriving DecidableEq, Repr

/-- The default configuration values from the source. -/
def DEFAULT_CONFIG : Config :=
  { WAIT_BETWEEN_STEPS := 400
    WAIT_AFTER_DELETE := 500
    SCAN_INTERVAL := 4000
    MENU_ATTEMPTS := 4
    CONFIRM_ATTEMPTS := 4 }

/-- The external collaborators read synchronously during one method call:
the identity resolver (`getUsername`, `[]` when unresolved), the context
predicate (`isWithReplies`), `window.location.pathname`, and the document. -/
structure Env where
  rawUsername : JStr
  withReplies : Bool
  pathname : JStr
  doc : DocModel

/-- Model of `isOnRepliesPage()`. -/
def isOnRepliesPage (env : Env) : Bool :=
  let username := getNormalizedUsername env.rawUsername
  if username.isEmpty then false
  else
    env.withReplies
      && ('/' :: username).isPrefixOf (lowerStr env.pathname)
      && (strL "/with_replies").isSuffixOf (lowerStr env.pathname)

/-- Model of `canOperate()`. -/
def canOperate (env : Env) : Bool :=
  !(getNormalizedUsername env.rawUsername).isEmpty && isOnRepliesPage env

/-- Model of `getUnavailableReason()`. -/
def getUnavailableReason (env : Env) : String :=
  if (getNormalizedUsername env.rawUsername).isEmpty then
    "Open your profile's /with_replies page to capture the username."
  else if !env.withReplies then
    "Auto delete is only available on the /with_replies view."
  else
    "Navigate to your own /with_replies page to enable auto delete."

/-- Model of `composeMessage()`. -/
def composeMessage (env : Env) (s : AgentState) : String :=
  if (getNormalizedUsername env.rawUsername).isEmpty then
    "Open a /with_replies page to detect your username."
  else if !env.withReplies then
    "Auto delete becomes available on /with_replies."
  else if s.deleting then
    "Deleting a flagged reply..."
  else if s.running then
    "Scanning flagged replies..."
  else
    "Ready to delete flagged replies."

/-- The status snapshot `emitStatus()` publishes on the event bus. -/
structure StatusDetail where
  running : Bool
  deleting : Bool
  deletedCount : Nat
  username : Option JStr
  canRun : Bool
  message : String
deriving DecidableEq

/-- JS truthiness of an optional string (`null` and `""` are falsy). -/
def strTruthy : Option String → Bool
  | none => false
  | some r => !r.isEmpty

/-- The detail object built by `emitStatus()`:
`message` is `lastError || composeMessage()`, `username` is
`getNormalizedUsername() || null`. -/
def emitStatusDetail (env : Env) (s : AgentState) : StatusDetail :=
  { running := s.running
    deleting := s.deleting
    deletedCount := s.deletedCount
    username :=
      if (getNormalizedUsername env.rawUsername).isEmpty then none
      else some (getNormalizedUsername env.rawUsername)
    canRun := canOperate env
    message :=
      match s.lastError with
      | some e => if e.isEmpty then composeMessage env s else e
      | none => composeMessage env s }

/-- Whether the one `await` point of `runCycle` (the `deleteArticle` call)
is currently suspended: `midDeletion` between setting `deleting = true`
and the `finally` block. -/
inductive Phase
  | idle
  | midDeletion
deriving DecidableEq, Repr

/-- The whole mutable footprint of one manager instance: `this.state`,
`this.loopHandle` (an opaque non-zero timer id, `none` when disarmed),
and the phase of the one possibly-suspended `runCycle`. -/
structure Sys where
  state : AgentState
  loopHandle : Option Nat
  phase : Phase
deriving DecidableEq, Repr

/-- The state of a freshly constructed manager. -/
def Sys.init : Sys :=
  { state := { running := false, deleting := false, deletedCount := 0, lastError := none }
    loopHandle := none
    phase := .idle }

/-- Model of `ensureLoop()` on the handle: keep an armed timer, otherwise arm one
(`setInterval` returns an opaque non-zero id; the model uses `1`). -/
def ensureLoop : Option Nat → Option Nat
  | some h => some h
  | none => some 1

/-- Model of `clearLoop()` on the handle. -/
def clearLoop : Option Nat → Option Nat
  | some _ => none
  | none => none

/-- Model of `stop(reason)`; returns the new system state and the emitted status events. -/
def stop (reason : Option String) (env : Env) (sys : Sys) : Sys × List StatusDetail :=
  if !sys.state.running then
    let s := { sys.state with
      lastError := if strTruthy reason then reason else sys.state.lastError }
    ({ sys with state := s }, [emitStatusDetail env s])
  else
    let s0 := { sys.state with running := false }
    let s := if strTruthy reason then { s0 with lastError := reason } else s0
    ({ sys with state := s, loopHandle := clearLoop sys.loopHandle },
     [emitStatusDetail env s])

/-- Model of `destroy()`: only `clearLoop()`. -/
def destroy (sys : Sys) : Sys × List StatusDetail :=
  ({ sys with loopHandle := clearLoop sys.loopHandle }, [])

/-- The synchronous prefix of `runCycle()`, up to (and including) setting
`deleting := true` and publishing status just before `await deleteArticle`.
The third component reports whether the cycle entered the deletion workflow. -/
def runCycleBegin (env : Env) (sys : Sys) : Sys × List StatusDetail × Bool :=
  if !sys.state.running || sys.state.deleting then (sys, [], false)
  else if !canOperate env then
    let r := stop (some (getUnavailableReason env)) env sys
    (r.1, r.2, false)
  else
    match findFirstFlaggedArticle (getNormalizedUsername env.rawUsername) env.doc with
    | none => (sys, [], false)
    | some _ =>
      let s := { sys.state with deleting := true }
      ({ sys with state := s, phase := .midDeletion }, [emitStatusDetail env s], true)

/-- How the awaited `deleteArticle(article)` call came back: resolved `true`,
resolved `false`, or rejected with an error whose computed message
(`error?.message || String(error)`) is `msg`. -/
inductive Outcome
  | deleted
  | notDeleted
  | threw (msg : String)
deriving DecidableEq, Repr

/-- The continuation of `runCycle()` after `await deleteArticle`: the
`if (deleted)` increment, the `catch` recording `lastError`, and the
`finally` clearing `deleting` and publishing status. -/
def runCycleEnd (o : Outcome) (env : Env) (sys : Sys) : Sys × List StatusDetail :=
  let s1 :=
    match o with
    | .deleted => { sys.state with deletedCount := sys.state.deletedCount + 1 }
    | .notDeleted => sys.state
    | .threw msg => { sys.state with lastError := some msg }
  let s2 := { s1 with deleting := false }
  ({ sys with state := s2, phase := .idle }, [emitStatusDetail env s2])

/-- Model of `start()`; the trailing `void this.runCycle()` runs the cycle's
synchronous prefix before control returns. -/
def start (env : Env) (sys : Sys) : Sys × List StatusDetail :=
  if sys.state.running then (sys, [])
  else if !canOperate env then
    let s := { sys.state with lastError := some (getUnavailableReason env) }
    ({ sys with state := s }, [emitStatusDetail env s])
  else
    let s := { sys.state with running := true, deletedCount := 0, lastError := none }
    let sys1 : Sys := { sys with state := s, loopHandle := ensureLoop sys.loopHandle }
    let r := runCycleBegin env sys1
    (r.1, emitStatusDetail env s :: r.2.1)

/-- Model of `handleContextChange()`. -/
def handleContextChange (env : Env) (sys : Sys) : Sys × List StatusDetail :=
  if sys.state.running && !canOperate env then
    stop (some (getUnavailableReason env)) env sys
  else
    (sys, [emitStatusDetail env sys.state])

/-- One externally observable call into the manager.  `runCycle` is split at
its single state-relevant suspension point: `cycleBeginEv` is a timer tick
entering the cycle, `cycleEndEv o` is the resumption of the suspended cycle
once `deleteArticle` settles with outcome `o`. -/
inductive Event
  | startEv
  | stopEv (reason : Option String)
  | destroyEv
  | contextChangeEv
  | cycleBeginEv
  | cycleEndEv (o : Outcome)

/-- One step of the manager: the event's method run against the environment
as read at that instant.  A `cycleEndEv` with no suspended cycle has no
continuation to run and is a no-op. -/
def stepSys (sys : Sys) (ee : Env × Event) : Sys :=
  match ee.2 with
  | .startEv => (start ee.1 sys).1
  | .stopEv reason => (stop reason ee.1 sys).1
  | .destroyEv => (destroy sys).1
  | .contextChangeEv => (handleContextChange ee.1 sys).1
  | .cycleBeginEv => (runCycleBegin ee.1 sys).1
  | .cycleEndEv o => if sys.phase = .midDeletion then (runCycleEnd o ee.1 sys).1 else sys

/-- Run a sequence of public calls from a given system state. -/
def runEvents (sys : Sys) (es : List (Env × Event)) : Sys :=
  es.foldl stepSys sys

/-- The time-varying DOM data the three workflow steps poll, indexed by
attempt number: per caret poll, the results of the four `CARET_SELECTORS`
queries on the article; per menu attempt, the `innerText` of all
`[role='menuitem']` nodes; per confirm attempt, the `CONFIRM_SELECTOR`
query result. -/
structure WorkflowTrace where
  caretQueries : Nat → List (Option Elem)
  menuItems : Nat → List JStr
  confirmQuery : Nat → Option Elem

/-- The retry loop of `findCaretWithRetry`: at poll `i`, map the caret
selectors over `querySelector` and `find` the first visible result;
otherwise delay and retry while attempts remain. -/
def findCaretLoop (tr : WorkflowTrace) : Nat → Nat → Option Elem
  | 0, _ => none
  | fuel + 1, i =>
    match (tr.caretQueries i).find? isVisible with
    | some caret => caret
    | none => findCaretLoop tr fuel (i + 1)

/-- Model of `findCaretWithRetry(article, maxRetries = 5, delayMs = 250)`; the delay
only suspends and is not otherwise observable in the model. -/
def findCaretWithRetry (tr : WorkflowTrace) (maxRetries : Nat := 5)
    (delayMs : Nat := 250) : Option Elem :=
  let _ := delayMs
  findCaretLoop tr maxRetries 0

/-- The label test of `tryClickDeleteMenuItem`:
`(item.innerText || "").toLowerCase().includes("delete")`. -/
def hasDeleteLabel (label : JStr) : Bool :=
  strIncludes (strL "delete") (lowerStr label)

/-- The attempt loop of `tryClickDeleteMenuItem`: per attempt, scan all
menu items for one whose label contains `delete`; click it and succeed,
or retry until `MENU_ATTEMPTS` is exhausted. -/
def menuLoop (tr : WorkflowTrace) : Nat → Nat → Bool
  | 0, _ => false
  | fuel + 1, attempt =>
    if (tr.menuItems attempt).any hasDeleteLabel then true
    else menuLoop tr fuel (attempt + 1)

/-- Model of `tryClickDeleteMenuItem()`. -/
def tryClickDeleteMenuItem (tr : WorkflowTrace) (cfg : Config) : Bool :=
  menuLoop tr cfg.MENU_ATTEMPTS 0

/-- The attempt loop of `tryConfirmDelete`: per attempt, query the confirm
button and succeed when it is visible. -/
def confirmLoop (tr : WorkflowTrace) : Nat → Nat → Bool
  | 0, _ => false
  | fuel + 1, attempt =>
    if isVisible (tr.confirmQuery attempt) then true
    else confirmLoop tr fuel (attempt + 1)

/-- Model of `tryConfirmDelete()`. -/
def tryConfirmDelete (tr : WorkflowTrace) (cfg : Config) : Bool :=
  confirmLoop tr cfg.CONFIRM_ATTEMPTS 0

/-- Model of `deleteArticle(article)` (the workflow runner): the boolean result and
the log lines it writes.  Clicks and settle delays have no further
observable effect on the model. -/
def deleteArticle (tr : WorkflowTrace) (cfg : Config) : Bool × List String :=
  match findCaretWithRetry tr 5 250 with
  | none => (false, ["[AutoDelete] Caret button not found"])
  | some _ =>
    if !tryClickDeleteMenuItem tr cfg then
      (false, ["[AutoDelete] Delete menu item not clicked"])
    else if !tryConfirmDelete tr cfg then
      (false, ["[AutoDelete] Confirm delete button not found"])
    else (true, [])

/-- A whole `runCycle()` in which `deleteArticle` settles without throwing:
the synchronous prefix, then, if the workflow was entered, the continuation
with the outcome `deleteArticle` computes on the trace `tr`. -/
def runCycleFull (env : Env) (tr : WorkflowTrace) (cfg : Config) (sys : Sys) :
    Sys × List StatusDetail :=
  let r := runCycleBegin env sys
  if r.2.2 then
    let o : Outcome := if (deleteArticle tr cfg).1 then .deleted else .notDeleted
    let r2 := runCycleEnd o env r.1
    (r2.1, r.2.1 ++ r2.2)
  else (r.1, r.2.1)

/-! Concrete fixtures used by witnesses and counterexamples. -/

/-- A flagged self-authored reply by `alice`. -/
def exampleArticle : Article :=
  { anchorHrefs := [strL "/alice/status/123"], hasUnretweetButton := false }

/-- A content unit carrying a repost marker together with two identity
references matching `alice`. -/
def repostArticle : Article :=
  { anchorHrefs := [strL "/alice", strL "/alice/status/5"], hasUnretweetButton := true }

/-- A flagged cell containing `exampleArticle`. -/
def exampleCell : Cell :=
  { ghosted := strL "postquality.problem", articles := [exampleArticle] }

/-- A document with one flagged cell. -/
def exampleDoc : DocModel := { flaggedCells := [exampleCell] }

/-- An environment in which the agent can operate: identity `alice`,
on `/alice/with_replies`, with `exampleDoc` rendered. -/
def envAvailable : Env :=
  { rawUsername := strL "alice", withReplies := true,
    pathname := strL "/alice/with_replies", doc := exampleDoc }

/-- An environment in which the availability predicate is false
(`isWithReplies()` reports a non-qualifying view). -/
def envUnavailable : Env :=
  { rawUsername := strL "alice", withReplies := false,
    pathname := strL "/alice", doc := { flaggedCells := [] } }

/-- A running, not-busy agent with an armed timer. -/
def sysRunning : Sys :=
  { state := { running := true, deleting := false, deletedCount := 0, lastError := none }
    loopHandle := some 1
    phase := .idle }

/-- A workflow trace on which the caret never becomes visible
(every poll returns four null query results). -/
def caretlessTrace : WorkflowTrace :=
  { caretQueries := fun _ => [none, none, none, none]
    menuItems := fun _ => []
    confirmQuery := fun _ => none }

/-- A workflow trace on which every step succeeds at its first attempt. -/
def successTrace : WorkflowTrace :=
  { caretQueries := fun _ => [some { offsetWidth := 1, offsetHeight := 0, clientRectsLen := 0 }]
    menuItems := fun _ => [strL "Delete"]
    confirmQuery := fun _ => some { offsetWidth := 2, offsetHeight := 2, clientRectsLen := 1 } }

/-- A trace that agrees with `caretlessTrace` on every attempt index below
the retry budgets but differs beyond them. -/
def beyondBudgetTrace : WorkflowTrace :=
  { caretQueries := fun i =>
      if i < 5 then [none, none, none, none]
      else [some { offsetWidth := 1, offsetHeight := 1, clientRectsLen := 1 }]
    menuItems := fun i => if i < 4 then [] else [strL "delete"]
    confirmQuery := fun i =>
      if i < 4 then none
      else some { offsetWidth := 1, offsetHeight := 1, clientRectsLen := 1 } }

/-- The invariant under which the spec's `busy ⇒ running` survives the
reachable state space: `deleting` is set exactly while a `runCycle` is
suspended at its `await`. -/
def DelInv (sys : Sys) : Prop :=
  sys.state.deleting = true → sys.phase = .midDeletion

/-! Frame lemmas for the lifecycle methods. -/

theorem stop_frame (reason : Option String) (env : Env) (sys : Sys) :
    (stop reason env sys).1.state.deleting = sys.state.deleting
    ∧ (stop reason env sys).1.phase = sys.phase
    ∧ (stop reason env sys).1.state.deletedCount = sys.state.deletedCount := by
  unfold stop
  split
  · simp
  · split <;> simp

theorem runCycleBegin_preserves_DelInv (env : Env) (sys : Sys) (h : DelInv sys) :
    DelInv (runCycleBegin env sys).1 := by
  unfold runCycleBegin
  split
  · exact h
  · split
    · intro hd
      have hf := stop_frame (some (getUnavailableReason env)) env sys
      rw [hf.1] at hd
      rw [hf.2.1]
      exact h hd
    · split
      · exact h
      · intro _
        rfl

theorem runCycleBegin_count (env : Env) (sys : Sys) :
    (runCycleBegin env sys).1.state.deletedCount = sys.state.deletedCount := by
  unfold runCycleBegin
  split
  · rfl
  · split
    · exact (stop_frame _ env sys).2.2
    · split
      · rfl
      · rfl

theorem stepSys_preserves_DelInv (sys : Sys) (ee : Env × Event) (h : DelInv sys) :
    DelInv (stepSys sys ee) := by
  obtain ⟨env, e⟩ := ee
  cases e with
  | startEv =>
    show DelInv (start env sys).1
    unfold start
    split
    · exact h
    · split
      · exact fun hd => h hd
      · exact runCycleBegin_preserves_DelInv env _ (fun hd => h hd)
  | stopEv reason =>
    show DelInv (stop reason env sys).1
    intro hd
    have hf := stop_frame reason env sys
    rw [hf.1] at hd
    rw [hf.2.1]
    exact h hd
  | destroyEv => exact fun hd => h hd
  | contextChangeEv =>
    show DelInv (handleContextChange env sys).1
    unfold handleContextChange
    split
    · intro hd
      have hf := stop_frame (some (getUnavailableReason env)) env sys
      rw [hf.1] at hd
      rw [hf.2.1]
      exact h hd
    · exact h
  | cycleBeginEv => exact runCycleBegin_preserves_DelInv env sys h
  | cycleEndEv o =>
    show DelInv (if sys.phase = .midDeletion then (runCycleEnd o env sys).1 else sys)
    split
    · intro hd
      exfalso
      revert hd
      unfold runCycleEnd
      cases o <;> simp
    · exact h

theorem runEvents_preserves_DelInv :
    ∀ (es : List (Env × Event)) (sys : Sys), DelInv sys → DelInv (runEvents sys es) := by
  intro es
  induction es with
  | nil => exact fun sys h => h
  | cons e rest ih =>
    intro sys h
    exact ih (stepSys sys e) (stepSys_preserves_DelInv sys e h)

/-- C1 (counterexample): from the initial state, `start` in an available
context enters a deletion workflow (`deleting = true`, `running = true`,
so the invariant holds before the next call), and a `stop` issued while
that workflow is in flight leaves `deleting = true` with
`running = false` — `busy ⇒ running` is violated right after the `stop`
call returns. -/
theorem stop_midflight_breaks_busy_implies_running :
    (runEvents Sys.init [(envAvailable, .startEv)]).state.deleting = true
    ∧ (runEvents Sys.init [(envAvailable, .startEv)]).state.running = true
    ∧ (runEvents Sys.init
        [(envAvailable, .startEv), (envAvailable, .stopEv none)]).state.deleting = true
    ∧ (runEvents Sys.init
        [(envAvailable, .startEv), (envAvailable, .stopEv none)]).state.running = false := by
  refine ⟨by decide, by decide, by decide, by decide⟩

/-- C1 (amended): over every sequence of public calls from the initial
state, `deleting = true` only while a deletion workflow is suspended at
its `await`; whenever no workflow is in flight the spec's `busy ⇒ running`
invariant holds (in particular `deleting = false` then).  The invariant
can fail only between a `stop` issued mid-workflow and that workflow's
`finally` cleanup. -/
theorem deleting_implies_midDeletion (es : List (Env × Event)) :
    ((runEvents Sys.init es).state.deleting = true →
      (runEvents Sys.init es).phase = .midDeletion)
    ∧ ((runEvents Sys.init es).phase = .idle →
        (runEvents Sys.init es).state.deleting = false) := by
  have hinv : DelInv (runEvents Sys.init es) := by
    apply runEvents_preserves_DelInv
    intro hd
    exact absurd hd (by decide)
  refine ⟨hinv, ?_⟩
  intro hidle
  by_contra hne
  have hd : (runEvents Sys.init es).state.deleting = true := by
    revert hne
    cases (runEvents Sys.init es).state.deleting <;> simp
  have hm := hinv hd
  rw [hidle] at hm
  exact absurd hm (by decide)

/-- C1 (witness for the amended theorem): after a single available `start`
the agent is mid-deletion, discharging the hypothesis of the first
conjunct at a concrete input. -/
theorem deleting_implies_midDeletion_witness :
    (runEvents Sys.init [(envAvailable, .startEv)]).phase = .midDeletion :=
  (deleting_implies_midDeletion [(envAvailable, .startEv)]).1 (by decide)

/-- C10: `destroy()` only clears and nulls the timer handle; every field of
the agent state record and the cycle phase are unchanged and no status
event is published — in particular `running` keeps whatever value it had. -/
theorem destroy_only_clears_timer (sys : Sys) :
    (destroy sys).1.state = sys.state
    ∧ (destroy sys).1.loopHandle = none
    ∧ (destroy sys).1.phase = sys.phase
    ∧ (destroy sys).2 = [] := by
  unfold destroy
  cases h : sys.loopHandle <;> simp [clearLoop, h]

/-- C6: a scan-cycle invocation in a state with `running = false` or
`deleting = true` returns at the top guard: the system state is returned
unchanged, no status event is published, and the workflow is not entered. -/
theorem cycle_noop_when_not_running_or_deleting (env : Env) (sys : Sys)
    (h : sys.state.running = false ∨ sys.state.deleting = true) :
    runCycleBegin env sys = (sys, [], false) := by
  unfold runCycleBegin
  rcases h with h | h <;> simp [h]

/-- C6 (witness): the initial state is not running; a tick leaves it
untouched and publishes nothing. -/
theorem cycle_noop_witness :
    runCycleBegin envAvailable Sys.init = (Sys.init, [], false) :=
  cycle_noop_when_not_running_or_deleting envAvailable Sys.init (Or.inl rfl)

theorem runCycleEnd_deleting_and_count (o : Outcome) (env : Env) (sys : Sys) :
    (runCycleEnd o env sys).1.state.deleting = false
    ∧ (runCycleEnd o env sys).1.state.deletedCount
        = sys.state.deletedCount + (match o with | .deleted => 1 | _ => 0) := by
  unfold runCycleEnd
  cases o <;> simp

/-- C3: whenever a scan cycle enters the workflow, the cycle ends with
`deleting = false`; on a successful workflow (`deleteArticle` resolves
`true`) `deletedCount` grows by exactly 1, on a failed workflow
(`deleteArticle` resolves `false`) it is unchanged, and when
`deleteArticle` throws, the `finally` block still clears `deleting` and
`deletedCount` is unchanged, so an exception never leaves the agent busy. -/
theorem cycle_count_and_busy (env : Env) (tr : WorkflowTrace) (cfg : Config) (sys : Sys)
    (h : (runCycleBegin env sys).2.2 = true) :
    (runCycleFull env tr cfg sys).1.state.deleting = false
    ∧ ((deleteArticle tr cfg).1 = true →
        (runCycleFull env tr cfg sys).1.state.deletedCount = sys.state.deletedCount + 1)
    ∧ ((deleteArticle tr cfg).1 = false →
        (runCycleFull env tr cfg sys).1.state.deletedCount = sys.state.deletedCount)
    ∧ (∀ msg : String,
        (runCycleEnd (.threw msg) env (runCycleBegin env sys).1).1.state.deleting = false
        ∧ (runCycleEnd (.threw msg) env (runCycleBegin env sys).1).1.state.deletedCount
            = sys.state.deletedCount) := by
  have hb := runCycleBegin_count env sys
  have hfull : (runCycleFull env tr cfg sys).1
      = (runCycleEnd (if (deleteArticle tr cfg).1 then .deleted else .notDeleted)
          env (runCycleBegin env sys).1).1 := by
    unfold runCycleFull
    simp only [h, if_true]
  refine ⟨?_, ?_, ?_, ?_⟩
  · rw [hfull]
    exact (runCycleEnd_deleting_and_count _ env _).1
  · intro hd
    rw [hfull]
    simp only [hd, if_true]
    have := (runCycleEnd_deleting_and_count .deleted env (runCycleBegin env sys).1).2
    simp [this, hb]
  · intro hd
    rw [hfull]
    simp only [hd, Bool.false_eq_true, if_false]
    have := (runCycleEnd_deleting_and_count .notDeleted env (runCycleBegin env sys).1).2
    simp [this, hb]
  · intro msg
    have := runCycleEnd_deleting_and_count (.threw msg) env (runCycleBegin env sys).1
    exact ⟨this.1, by simp [this.2, hb]⟩

/-- C3 (witness): the spec's success scenario — running agent, available
context, all three steps succeed within budget — ends not busy with
`deletedCount = 1`. -/
theorem cycle_count_and_busy_witness :
    (runCycleBegin envAvailable sysRunning).2.2 = true
    ∧ (runCycleFull envAvailable successTrace DEFAULT_CONFIG sysRunning).1.state.deleting = false
    ∧ (runCycleFull envAvailable successTrace DEFAULT_CONFIG sysRunning).1.state.deletedCount = 1 := by
  have h := cycle_count_and_busy envAvailable successTrace DEFAULT_CONFIG sysRunning (by decide)
  exact ⟨by decide, h.1, by simpa using h.2.1 (by decide)⟩

/-- C2 (counterexample): when the caret never becomes visible within the
5-attempt budget, `findCaretWithRetry` returns none, `deleteArticle`
resolves `false` and logs "Caret button not found", and the cycle leaves
`deletedCount` unchanged — but `lastError` is NOT set: it stays `none`,
contradicting the claim that a negative result records a failure reason. -/
theorem negative_result_leaves_lastError_unset :
    findCaretWithRetry caretlessTrace 5 250 = none
    ∧ deleteArticle caretlessTrace DEFAULT_CONFIG
        = (false, ["[AutoDelete] Caret button not found"])
    ∧ (runCycleFull envAvailable caretlessTrace DEFAULT_CONFIG sysRunning).1.state.lastError = none
    ∧ (runCycleFull envAvailable caretlessTrace DEFAULT_CONFIG sysRunning).1.state.deletedCount
        = sysRunning.state.deletedCount := by
  refine ⟨by decide, by decide, by decide, by decide⟩

/-- C2 (amended): only an exception records its reason in `lastError`; a
negative workflow result leaves `lastError` (and `deletedCount`)
unchanged, while the workflow itself returns `false` and logs the failed
step — in particular a never-visible caret yields `runWorkflow = false`
with the "Caret button not found" log line. -/
theorem failure_recording_amended (env : Env) (sys : Sys) (msg : String)
    (tr : WorkflowTrace) (cfg : Config) :
    (runCycleEnd (.threw msg) env sys).1.state.lastError = some msg
    ∧ (runCycleEnd (.threw msg) env sys).1.state.deletedCount = sys.state.deletedCount
    ∧ (runCycleEnd .notDeleted env sys).1.state.lastError = sys.state.lastError
    ∧ (runCycleEnd .notDeleted env sys).1.state.deletedCount = sys.state.deletedCount
    ∧ (findCaretWithRetry tr 5 250 = none →
        deleteArticle tr cfg = (false, ["[AutoDelete] Caret button not found"])) := by
  refine ⟨by simp [runCycleEnd], by simp [runCycleEnd], by simp [runCycleEnd],
    by simp [runCycleEnd], ?_⟩
  intro hc
  unfold deleteArticle
  rw [hc]

/-- C2 (witness for the amended theorem): the caret-not-found implication
discharged on the concrete caretless trace. -/
theorem failure_recording_amended_witness :
    deleteArticle caretlessTrace DEFAULT_CONFIG
      = (false, ["[AutoDelete] Caret button not found"]) :=
  (failure_recording_amended envAvailable Sys.init "boom" caretlessTrace
    DEFAULT_CONFIG).2.2.2.2 (by decide)

/-- C4 (counterexample): in a reachable state that is already running,
`start()` with the availability predicate false returns at its first
guard: `running` stays `true` (not false), no timer change, no status
event, and `lastError` stays `none` instead of receiving a non-empty
unavailability reason. -/
theorem start_unavailable_while_running_cex :
    canOperate envUnavailable = false
    ∧ (runEvents Sys.init
        [(envAvailable, .startEv), (envAvailable, .cycleEndEv .notDeleted)]).state.running = true
    ∧ start envUnavailable
        (runEvents Sys.init [(envAvailable, .startEv), (envAvailable, .cycleEndEv .notDeleted)])
      = (runEvents Sys.init [(envAvailable, .startEv), (envAvailable, .cycleEndEv .notDeleted)],
         []) := by
  refine ⟨by decide, by decide, by decide⟩

theorem getUnavailableReason_not_isEmpty (env : Env) :
    (getUnavailableReason env).isEmpty = false := by
  unfold getUnavailableReason
  split
  · decide
  · split <;> decide

/-- C4 (amended): from any not-running state, `start()` under a false
availability predicate leaves `running = false`, arms no timer, sets
`lastError` to the non-empty unavailability reason, and publishes exactly
one status event whose message is that reason; if the agent is already
running, `start()` instead returns with no change and no event. -/
theorem start_unavailable_amended (env : Env) (sys : Sys)
    (h1 : canOperate env = false) (h2 : sys.state.running = false) :
    (start env sys).1.state.running = false
    ∧ (start env sys).1.loopHandle = sys.loopHandle
    ∧ (start env sys).1.phase = sys.phase
    ∧ (start env sys).1.state.lastError = some (getUnavailableReason env)
    ∧ getUnavailableReason env ≠ ""
    ∧ (start env sys).2 =
        [emitStatusDetail env { sys.state with lastError := some (getUnavailableReason env) }]
    ∧ (emitStatusDetail env
        { sys.state with lastError := some (getUnavailableReason env) }).message
          = getUnavailableReason env := by
  have hne : (getUnavailableReason env).isEmpty = false := getUnavailableReason_not_isEmpty env
  unfold start
  rw [h2, h1]
  refine ⟨by simpa using h2, rfl, rfl, rfl, ?_, rfl, ?_⟩
  · intro hs
    rw [hs] at hne
    exact absurd hne (by decide)
  · simp [emitStatusDetail, hne]

/-- C4 (witness for the amended theorem): a fresh agent started in the
non-qualifying context records the reason and stays stopped. -/
theorem start_unavailable_amended_witness :
    (start envUnavailable Sys.init).1.state.running = false
    ∧ (start envUnavailable Sys.init).1.state.lastError
        = some (getUnavailableReason envUnavailable) :=
  ⟨(start_unavailable_amended envUnavailable Sys.init (by decide) rfl).1,
   (start_unavailable_amended envUnavailable Sys.init (by decide) rfl).2.2.2.1⟩

/-! Character-level facts: ASCII lower-casing cannot produce a slash from
anything but a slash. -/

theorem toNat_ofNat_valid {n : Nat} (h : n.isValidChar) : (Char.ofNat n).toNat = n := by
  rw [Char.ofNat, dif_pos h]
  rfl

theorem char_toLower_slash {c : Char} (h : c.toLower = '/') : c = '/' := by
  by_cases hc : c.toNat ≥ 65 ∧ c.toNat ≤ 90
  · exfalso
    have h' : Char.ofNat (c.toNat + 32) = '/' := by
      rw [Char.toLower] at h
      simpa [hc] using h
    have hv : (c.toNat + 32).isValidChar := Or.inl (by omega)
    have h2 : (Char.ofNat (c.toNat + 32)).toNat = c.toNat + 32 := toNat_ofNat_valid hv
    rw [h'] at h2
    have h3 : ('/').toNat = 47 := rfl
    rw [h3] at h2
    omega
  · rw [Char.toLower] at h
    simpa [hc] using h

theorem cons_isPrefixOf_slash {l s : JStr} (h : ('/' :: l).isPrefixOf s = true) :
    ['/'].isPrefixOf s = true := by
  cases s with
  | nil => simp [List.isPrefixOf] at h
  | cons c t =>
    simp [List.isPrefixOf] at h ⊢
    exact h.1

theorem match_imp_lower_slash {u href : JStr}
    (h : lowerStr href = '/' :: u
      ∨ ('/' :: (u ++ ['/'])).isPrefixOf (lowerStr href) = true) :
    ['/'].isPrefixOf (lowerStr href) = true := by
  rcases h with h | h
  · rw [h]
    simp [List.isPrefixOf]
  · exact cons_isPrefixOf_slash h

theorem lower_slash_imp_raw {s : JStr} (h : ['/'].isPrefixOf (lowerStr s) = true) :
    ['/'].isPrefixOf s = true := by
  cases s with
  | nil => simp [lowerStr] at h
  | cons c t =>
    simp [lowerStr, List.isPrefixOf] at h ⊢
    exact (char_toLower_slash h.symm).symm

theorem tweetLinkLoop_true_iff (u : JStr) (a : Article) (ls : List JStr) :
    tweetLinkLoop u a ls = true ↔
      (a.hasUnretweetButton = false ∧ ∃ href ∈ ls,
        (lowerStr href = '/' :: u
          ∨ ('/' :: (u ++ ['/'])).isPrefixOf (lowerStr href) = true)) := by
  induction ls with
  | nil => simp [tweetLinkLoop]
  | cons href rest ih =>
    simp only [tweetLinkLoop]
    by_cases h1 : ['/'].isPrefixOf (lowerStr href) = true
    · simp only [h1, Bool.not_true, Bool.false_eq_true, if_false]
      by_cases h2 : lowerStr href = '/' :: u
          ∨ ('/' :: (u ++ ['/'])).isPrefixOf (lowerStr href) = true
      · have hcond : (decide (lowerStr href = '/' :: u)
            || ('/' :: (u ++ ['/'])).isPrefixOf (lowerStr href)) = true := by
          rcases h2 with h | h
          · simp [h]
          · simp [h]
        rw [hcond]
        simp only [if_true]
        cases hrep : a.hasUnretweetButton
        · constructor
          · intro _
            exact ⟨rfl, href, List.mem_cons_self _ _, h2⟩
          · intro _
            rfl
        · constructor
          · intro hfalse
            exact absurd hfalse (by decide)
          · rintro ⟨hr, -⟩
            exact absurd hr (by decide)
      · have hA : decide (lowerStr href = '/' :: u) = false :=
          decide_eq_false (fun he => h2 (Or.inl he))
        have hB : ('/' :: (u ++ ['/'])).isPrefixOf (lowerStr href) = false := by
          cases hb : ('/' :: (u ++ ['/'])).isPrefixOf (lowerStr href)
          · rfl
          · exact absurd (Or.inr hb) h2
        rw [hA, hB]
        simp only [Bool.or_self, Bool.false_eq_true, if_false]
        rw [ih]
        constructor
        · rintro ⟨hr, x, hx, hm⟩
          exact ⟨hr, x, List.mem_cons_of_mem _ hx, hm⟩
        · rintro ⟨hr, x, hx, hm⟩
          rcases List.mem_cons.mp hx with he | hx'
          · subst he
            exact absurd hm h2
          · exact ⟨hr, x, hx', hm⟩
    · have h1f : ['/'].isPrefixOf (lowerStr href) = false := by
        cases hb : ['/'].isPrefixOf (lowerStr href)
        · rfl
        · exact absurd hb h1
      simp only [h1f, Bool.not_false, if_true]
      rw [ih]
      constructor
      · rintro ⟨hr, x, hx, hm⟩
        exact ⟨hr, x, List.mem_cons_of_mem _ hx, hm⟩
      · rintro ⟨hr, x, hx, hm⟩
        rcases List.mem_cons.mp hx with he | hx'
        · subst he
          exact absurd (match_imp_lower_slash hm) h1
        · exact ⟨hr, x, hx', hm⟩

/-- C5: `isTweetByUser` returns `true` exactly when the normalized identity
(trimmed, leading `@` stripped, lowercased) is non-empty, the unit carries
no repost marker, and some link's lowercased `href` equals `/<identity>` or
starts with `/<identity>/`; in particular identity input `@Alice` matches
the reference path `/alice/status/123`. -/
theorem isTweetByUser_characterization (raw : JStr) (a : Article) :
    (isTweetByUser (getNormalizedUsername raw) a = true ↔
      (getNormalizedUsername raw ≠ [] ∧ a.hasUnretweetButton = false ∧
        ∃ href ∈ a.anchorHrefs,
          (lowerStr href = '/' :: getNormalizedUsername raw
            ∨ ('/' :: (getNormalizedUsername raw ++ ['/'])).isPrefixOf (lowerStr href)
                = true)))
    ∧ isTweetByUser (getNormalizedUsername (strL "@Alice")) exampleArticle = true := by
  refine ⟨?_, by decide⟩
  unfold isTweetByUser
  by_cases hue : (getNormalizedUsername raw).isEmpty = true
  · rw [if_pos hue]
    have hne : getNormalizedUsername raw = [] := List.isEmpty_iff.mp hue
    constructor
    · intro hf
      exact absurd hf (by decide)
    · rintro ⟨hcontra, -⟩
      exact absurd hne hcontra
  · rw [if_neg hue]
    have hne : getNormalizedUsername raw ≠ [] := by
      intro he
      exact hue (List.isEmpty_iff.mpr he)
    rw [tweetLinkLoop_true_iff]
    constructor
    · rintro ⟨hr, x, hx, hm⟩
      exact ⟨hne, hr, x, (List.mem_filter.mp hx).1, hm⟩
    · rintro ⟨-, hr, x, hx, hm⟩
      refine ⟨hr, x, ?_, hm⟩
      exact List.mem_filter.mpr ⟨hx, lower_slash_imp_raw (match_imp_lower_slash hm)⟩

theorem tweetLinkLoop_false_of_repost (u : JStr) (a : Article)
    (h : a.hasUnretweetButton = true) : ∀ ls, tweetLinkLoop u a ls = false := by
  intro ls
  induction ls with
  | nil => rfl
  | cons href rest ih =>
    simp only [tweetLinkLoop, h]
    split
    · exact ih
    · split
      · rfl
      · exact ih

/-- C9: the repost exclusion is a property of the whole content unit — if
the unit carries an un-retweet marker, `isTweetByUser` is `false` for it
regardless of how many of its references match the identity. -/
theorem repost_marker_excludes_unit (u : JStr) (a : Article)
    (h : a.hasUnretweetButton = true) : isTweetByUser u a = false := by
  unfold isTweetByUser
  split
  · rfl
  · exact tweetLinkLoop_false_of_repost u a h _

/-- C9 (witness): a unit with two matching `alice` references and a repost
marker is rejected. -/
theorem repost_marker_excludes_unit_witness :
    isTweetByUser (strL "alice") repostArticle = false :=
  repost_marker_excludes_unit (strL "alice") repostArticle rfl

theorem firstArticleLoop_eq (u : JStr) :
    ∀ cs : List Cell, firstArticleLoop u cs = cs.findSome? (getTargetArticleFromCell u) := by
  intro cs
  induction cs with
  | nil => rfl
  | cons c rest ih =>
    cases hc : getTargetArticleFromCell u c with
    | some a =>
      rw [List.findSome?_cons_of_isSome _ (by simp [hc])]
      simp only [firstArticleLoop, hc]
    | none =>
      rw [List.findSome?_cons_of_isNone _ (by simp [hc])]
      simp only [firstArticleLoop, hc]
      exact ih

/-- C8: target selection is deterministic — equal document state and equal
resolved identity give equal results — and `findFirstFlaggedArticle` is
exactly the first attributable article in the document-order concatenation
of the flagged cells' articles (`none` when there is none). -/
theorem findFirstFlaggedArticle_deterministic (u : JStr) (d : DocModel)
    (u' : JStr) (d' : DocModel) (h1 : u = u') (h2 : d = d') :
    findFirstFlaggedArticle u d = findFirstFlaggedArticle u' d'
    ∧ findFirstFlaggedArticle u d
        = ((getAllFlaggedCells d).map Cell.articles).flatten.find? (isTweetByUser u) := by
  subst h1
  subst h2
  refine ⟨rfl, ?_⟩
  unfold findFirstFlaggedArticle
  rw [firstArticleLoop_eq, List.find?_flatten, List.findSome?_map]
  rfl

/-- C8 (witness): determinism and the first-match characterization at the
concrete example document. -/
theorem findFirstFlaggedArticle_deterministic_witness :
    findFirstFlaggedArticle (strL "alice") exampleDoc
      = findFirstFlaggedArticle (strL "alice") exampleDoc
    ∧ findFirstFlaggedArticle (strL "alice") exampleDoc
        = ((getAllFlaggedCells exampleDoc).map Cell.articles).flatten.find?
            (isTweetByUser (strL "alice")) :=
  findFirstFlaggedArticle_deterministic (strL "alice") exampleDoc (strL "alice")
    exampleDoc rfl rfl

theorem findCaretLoop_congr (tr tr' : WorkflowTrace) :
    ∀ (fuel i : Nat),
      (∀ j, j < fuel → tr.caretQueries (i + j) = tr'.caretQueries (i + j)) →
      findCaretLoop tr fuel i = findCaretLoop tr' fuel i := by
  intro fuel
  induction fuel with
  | zero =>
    intro i _
    rfl
  | succ n ih =>
    intro i h
    have h0 : tr.caretQueries i = tr'.caretQueries i := by
      have := h 0 (Nat.succ_pos n)
      simpa using this
    simp only [findCaretLoop, h0]
    cases hf : (tr'.caretQueries i).find? isVisible with
    | some c => rfl
    | none =>
      apply ih
      intro j hj
      have hx := h (j + 1) (Nat.succ_lt_succ hj)
      have e : i + (j + 1) = i + 1 + j := by omega
      rw [e] at hx
      exact hx

theorem menuLoop_congr (tr tr' : WorkflowTrace) :
    ∀ (fuel i : Nat),
      (∀ j, j < fuel → tr.menuItems (i + j) = tr'.menuItems (i + j)) →
      menuLoop tr fuel i = menuLoop tr' fuel i := by
  intro fuel
  induction fuel with
  | zero =>
    intro i _
    rfl
  | succ n ih =>
    intro i h
    have h0 : tr.menuItems i = tr'.menuItems i := by
      have := h 0 (Nat.succ_pos n)
      simpa using this
    simp only [menuLoop, h0]
    cases hf : (tr'.menuItems i).any hasDeleteLabel with
    | true => rfl
    | false =>
      apply ih
      intro j hj
      have hx := h (j + 1) (Nat.succ_lt_succ hj)
      have e : i + (j + 1) = i + 1 + j := by omega
      rw [e] at hx
      exact hx

theorem confirmLoop_congr (tr tr' : WorkflowTrace) :
    ∀ (fuel i : Nat),
      (∀ j, j < fuel → tr.confirmQuery (i + j) = tr'.confirmQuery (i + j)) →
      confirmLoop tr fuel i = confirmLoop tr' fuel i := by
  intro fuel
  induction fuel with
  | zero =>
    intro i _
    rfl
  | succ n ih =>
    intro i h
    have h0 : tr.confirmQuery i = tr'.confirmQuery i := by
      have := h 0 (Nat.succ_pos n)
      simpa using this
    simp only [confirmLoop, h0]
    cases hf : isVisible (tr'.confirmQuery i) with
    | true => rfl
    | false =>
      apply ih
      intro j hj
      have hx := h (j + 1) (Nat.succ_lt_succ hj)
      have e : i + (j + 1) = i + 1 + j := by omega
      rw [e] at hx
      exact hx

/-- C7: every retry loop is governed by a fixed attempt ceiling — the caret
search consults at most its 5 default polls, the menu step at most
`MENU_ATTEMPTS` scans, the confirm step at most `CONFIRM_ATTEMPTS` queries
(defaults 4 and 4), and hence the whole `deleteArticle` workflow result is
fully determined by the probes below those bounds and always terminates
with a boolean. -/
theorem workflow_bounded_probes (tr tr' : WorkflowTrace) (cfg : Config)
    (hc : ∀ j, j < 5 → tr.caretQueries j = tr'.caretQueries j)
    (hm : ∀ j, j < cfg.MENU_ATTEMPTS → tr.menuItems j = tr'.menuItems j)
    (hk : ∀ j, j < cfg.CONFIRM_ATTEMPTS → tr.confirmQuery j = tr'.confirmQuery j) :
    findCaretWithRetry tr 5 250 = findCaretWithRetry tr' 5 250
    ∧ tryClickDeleteMenuItem tr cfg = tryClickDeleteMenuItem tr' cfg
    ∧ tryConfirmDelete tr cfg = tryConfirmDelete tr' cfg
    ∧ deleteArticle tr cfg = deleteArticle tr' cfg
    ∧ DEFAULT_CONFIG.MENU_ATTEMPTS = 4 ∧ DEFAULT_CONFIG.CONFIRM_ATTEMPTS = 4 := by
  have h1 : findCaretWithRetry tr 5 250 = findCaretWithRetry tr' 5 250 :=
    findCaretLoop_congr tr tr' 5 0 (fun j hj => by simpa using hc j hj)
  have h2 : tryClickDeleteMenuItem tr cfg = tryClickDeleteMenuItem tr' cfg :=
    menuLoop_congr tr tr' cfg.MENU_ATTEMPTS 0 (fun j hj => by simpa using hm j hj)
  have h3 : tryConfirmDelete tr cfg = tryConfirmDelete tr' cfg :=
    confirmLoop_congr tr tr' cfg.CONFIRM_ATTEMPTS 0 (fun j hj => by simpa using hk j hj)
  refine ⟨h1, h2, h3, ?_, rfl, rfl⟩
  unfold deleteArticle
  rw [h1, h2, h3]

/-- C7 (witness): two traces agreeing below the retry budgets but differing
beyond them yield identical workflow results. -/
theorem workflow_bounded_probes_witness :
    findCaretWithRetry caretlessTrace 5 250 = findCaretWithRetry beyondBudgetTrace 5 250
    ∧ deleteArticle caretlessTrace DEFAULT_CONFIG
        = deleteArticle beyondBudgetTrace DEFAULT_CONFIG := by
  have h := workflow_bounded_probes caretlessTrace beyondBudgetTrace DEFAULT_CONFIG
    (by decide) (by decide) (by decide)
  exact ⟨h.1, h.2.2.2.1⟩

end XGhost
